import Mathlib

/-!
Verification development for the arti RPC client core
(`crates/arti-rpc-client-core/arti-rpc-client-core.h`).

The repository ships the C header, which declares the API and documents its
contract (status codes, response types, NULL handling, the semantics of
`arti_rpc_conn_execute`, `arti_rpc_conn_execute_with_handle`,
`arti_rpc_handle_wait`, `arti_rpc_handle_free`).  The Rust implementation of
the connection engine (Pending-Request Table, Dispatch Loop, Handle) is not
part of the sources available here, so the engine is modelled from the
specification text, faithfully to its words; the header's constants and
documented contracts are embedded directly.
-/

namespace ArtiRpc

/-- Status code `ARTI_RPC_STATUS_SUCCESS` (header line 273). -/
def ARTI_RPC_STATUS_SUCCESS : Nat := 0

/-- Status code `ARTI_RPC_STATUS_INVALID_INPUT` (header line 280). -/
def ARTI_RPC_STATUS_INVALID_INPUT : Nat := 1

/-- Status code `ARTI_RPC_STATUS_PEER_PROTOCOL_VIOLATION` (header line 315). -/
def ARTI_RPC_STATUS_PEER_PROTOCOL_VIOLATION : Nat := 5

/-- Status code `ARTI_RPC_STATUS_REQUEST_FAILED` (header line 339). -/
def ARTI_RPC_STATUS_REQUEST_FAILED : Nat := 8

/-- Status code `ARTI_RPC_STATUS_REQUEST_CANCELLED` (header line 347):
"Tried to check the status of a request and found that it was no longer
running." -/
def ARTI_RPC_STATUS_REQUEST_CANCELLED : Nat := 9

/-- Response type `ARTI_RPC_RESPONSE_TYPE_RESULT` (header line 253). -/
def ARTI_RPC_RESPONSE_TYPE_RESULT : Nat := 1

/-- Response type `ARTI_RPC_RESPONSE_TYPE_UPDATE` (header line 260). -/
def ARTI_RPC_RESPONSE_TYPE_UPDATE : Nat := 2

/-- Response type `ARTI_RPC_RESPONSE_TYPE_ERROR` (header line 268). -/
def ARTI_RPC_RESPONSE_TYPE_ERROR : Nat := 3

/-- A request identifier, unique per connection (spec section 3). -/
abbrev RequestId := Nat

/-- An opaque JSON payload; the core treats message bodies as opaque text. -/
abbrev Payload := String

/-- Modelled from the spec: the tag of a `ResponseEnvelope` — exactly one of
Update (non-terminal), Result (terminal success), Error (terminal failure). -/
inductive RType
| update
| result
| error
deriving DecidableEq

/-- A Result or Error envelope is terminal; an Update is not (spec section 3). -/
def RType.isTerminal : RType → Bool
| .update => false
| .result => true
| .error => true

/-- The `ArtiRpcResponseType` constant the header assigns to each tag. -/
def RType.code : RType → Nat
| .result => ARTI_RPC_RESPONSE_TYPE_RESULT
| .update => ARTI_RPC_RESPONSE_TYPE_UPDATE
| .error => ARTI_RPC_RESPONSE_TYPE_ERROR

/-- Modelled from the spec: one inbound response envelope, carrying the
`RequestId` it correlates with, its tag, and its JSON body. -/
structure Msg where
  rid : RequestId
  rtype : RType
  body : Payload
deriving DecidableEq

/-- Modelled from the spec: the state of one Pending-Request Table entry.
`active mbox` is a live delivery channel holding not-yet-consumed messages in
arrival order; `ceded` marks a request whose Handle was released before its
terminal message, whose further messages are "treated as already-consumed for
correlation purposes" (spec section 4.3). -/
inductive Entry
| active (mbox : List Msg)
| ceded
deriving DecidableEq

/-- Modelled from the spec: the state of one Connection that the claims are
about — the Pending-Request Table (an association list from `RequestId` to
`Entry`), whether the Connection has been poisoned by a peer protocol
violation, and whether the Dispatch Loop has terminated. -/
structure ConnState where
  table : List (RequestId × Entry)
  poisoned : Bool
  loopDone : Bool
deriving DecidableEq

/-- The keys of a Pending-Request Table. -/
def tableKeys (t : List (RequestId × Entry)) : List RequestId :=
  t.map Prod.fst

/-- Replace the first entry for `r` with `e`, or append `(r, e)` if absent. -/
def setEntry : List (RequestId × Entry) → RequestId → Entry → List (RequestId × Entry)
| [], r, e => [(r, e)]
| (k, v) :: rest, r, e =>
    if k = r then (k, e) :: rest else (k, v) :: setEntry rest r e

/-- Remove the first entry for `r` from the table. -/
def removeEntry : List (RequestId × Entry) → RequestId → List (RequestId × Entry)
| [], _ => []
| (k, v) :: rest, r => if k = r then rest else (k, v) :: removeEntry rest r

/-- `r` is pending iff it has a live (active) delivery channel in the table. -/
def isPending (st : ConnState) (r : RequestId) : Bool :=
  match st.table.lookup r with
  | some (.active _) => true
  | _ => false

/-- What the Dispatch Loop did with one inbound message. -/
inductive DispatchAction
| delivered
| dropped
| violation
deriving DecidableEq

/-- Modelled from the spec: one iteration of the Dispatch Loop
(spec section 4.2.1).  It looks the message's `RequestId` up in the
Pending-Request Table.  If a live channel is found, the message is delivered
to it (appended to the channel, preserving peer order).  If the entry was
ceded by an early Handle release, the message is discarded silently.  If no
entry exists (unknown ID, or ID already terminally closed), the peer has
violated the protocol: the Connection is marked failed and the loop
terminates. -/
def dispatchMsg (st : ConnState) (m : Msg) : ConnState × DispatchAction :=
  match st.table.lookup m.rid with
  | some (Entry.active mbox) =>
      ({ st with table := setEntry st.table m.rid (Entry.active (mbox ++ [m])) },
       DispatchAction.delivered)
  | some Entry.ceded => (st, DispatchAction.dropped)
  | none =>
      ({ st with poisoned := true, loopDone := true }, DispatchAction.violation)

/-- Modelled from the spec: the Dispatch Loop processing a stream of inbound
messages, stopping as soon as it has terminated. -/
def dispatchLoop (st : ConnState) : List Msg → ConnState
| [] => st
| m :: rest =>
    if st.loopDone then st else dispatchLoop (dispatchMsg st m).1 rest

/-- Outcome of one `arti_rpc_handle_wait` call: a successfully delivered
message (status `ARTI_RPC_STATUS_SUCCESS`, the response-type code, and the
body), a failure status, or suspension of the calling thread because no
message is available yet. -/
inductive WaitResult
| msg (status : Nat) (rtype : Nat) (body : Payload)
| err (status : Nat)
| wouldBlock
deriving DecidableEq

/-- Modelled from the spec: one `arti_rpc_handle_wait` call on the Handle for
request `r` (spec section 4.3, header lines 460-491).  On a poisoned
Connection every wait fails with a protocol-violation error.  A Handle whose
entry is gone (its terminal message was already consumed) gets a
"no longer active" error.  Otherwise the first queued message is consumed:
a terminal message removes the table entry; an update leaves the rest of the
queue in place. -/
def wait (st : ConnState) (r : RequestId) : ConnState × WaitResult :=
  if st.poisoned then
    (st, WaitResult.err ARTI_RPC_STATUS_PEER_PROTOCOL_VIOLATION)
  else
    match st.table.lookup r with
    | none => (st, WaitResult.err ARTI_RPC_STATUS_REQUEST_CANCELLED)
    | some Entry.ceded => (st, WaitResult.err ARTI_RPC_STATUS_REQUEST_CANCELLED)
    | some (Entry.active []) => (st, WaitResult.wouldBlock)
    | some (Entry.active (m :: rest)) =>
        if m.rtype.isTerminal then
          ({ st with table := removeEntry st.table r },
           WaitResult.msg ARTI_RPC_STATUS_SUCCESS m.rtype.code m.body)
        else
          ({ st with table := setEntry st.table r (Entry.active rest) },
           WaitResult.msg ARTI_RPC_STATUS_SUCCESS m.rtype.code m.body)

/-- Modelled from the spec: `arti_rpc_handle_free` before the terminal
message — the request's delivery channel is removed and further messages for
it are treated as already-consumed (spec section 4.3). -/
def handleFree (st : ConnState) (r : RequestId) : ConnState :=
  match st.table.lookup r with
  | some (Entry.active _) => { st with table := setEntry st.table r Entry.ceded }
  | _ => st

/-- Modelled from the spec: generation of a fresh, table-unique `RequestId`
— an identifier strictly larger than every key currently in the table. -/
def freshId (keys : List RequestId) : RequestId :=
  keys.foldr max 0 + 1

/-- Modelled from the spec: the send step shared by `arti_rpc_conn_execute`
and `arti_rpc_conn_execute_with_handle` (spec section 4.2): if the request
lacks an `id`, generate a fresh, table-unique one; insert a table entry;
return the id the request was sent under. -/
def sendRequest (st : ConnState) (explicitId : Option RequestId) :
    ConnState × RequestId :=
  let r := match explicitId with
    | some i => i
    | none => freshId (tableKeys st.table)
  ({ st with table := setEntry st.table r (Entry.active []) }, r)

/-- The empty just-connected state: no pending requests, loop running. -/
def initConn : ConnState :=
  { table := [], poisoned := false, loopDone := false }

/-- The first terminal envelope in a response stream, skipping the updates
that precede it; `none` when no terminal message ever arrives. -/
def waitUntilTerminal : List Msg → Option Msg
| [] => none
| m :: rest => if m.rtype.isTerminal then some m else waitUntilTerminal rest

/-- Final outcome of a synchronous `arti_rpc_conn_execute` call: the payload
of a successful response, or a failure status together with the peer's error
response when there is one. -/
inductive ExecResult
| ok (body : Payload)
| err (status : Nat) (response : Option Payload)
deriving DecidableEq

/-- Modelled from the spec: `arti_rpc_conn_execute` as a function of the
response stream for its request (spec sections 4.2 and 7): block until the
terminal (Result or Error) message; a Result yields the response payload; a
terminal Error envelope is re-mapped to a `ARTI_RPC_STATUS_REQUEST_FAILED`
error carrying the peer's error response.  `none` models a call that never
returns because no terminal message arrives. -/
def execute (msgs : List Msg) : Option ExecResult :=
  match waitUntilTerminal msgs with
  | some m =>
      if m.rtype = RType.result then some (ExecResult.ok m.body)
      else some (ExecResult.err ARTI_RPC_STATUS_REQUEST_FAILED (some m.body))
  | none => none

/-- Repeatedly call `wait` on the Handle for `r` until a non-update message
arrives, as a caller of `arti_rpc_conn_execute_with_handle` would; returns
the final `(status, response type, body)` triple.  `fuel` bounds the number
of calls; `none` models blocking forever or a wait failure. -/
def waitRepeat (st : ConnState) (r : RequestId) : Nat → Option (Nat × Nat × Payload)
| 0 => none
| fuel + 1 =>
    match wait st r with
    | (st2, WaitResult.msg s t b) =>
        if t = ARTI_RPC_RESPONSE_TYPE_UPDATE then waitRepeat st2 r fuel
        else some (s, t, b)
    | _ => none

/-- The re-mapping `arti_rpc_conn_execute` applies to the terminal message a
wait loop would return: a terminal Error envelope becomes a RequestFailed
error, anything else is a successful payload (spec section 7). -/
def remapTerminal (x : Nat × Nat × Payload) : ExecResult :=
  if x.2.1 = ARTI_RPC_RESPONSE_TYPE_ERROR then
    ExecResult.err ARTI_RPC_STATUS_REQUEST_FAILED (some x.2.2)
  else ExecResult.ok x.2.2

/-- The asynchronous path for one request on a fresh connection: send with a
generated id via the `execute_with_handle` send step, let the Dispatch Loop
deliver the peer's response stream `resp`, then wait repeatedly until a
terminal message, re-mapped to `execute`'s outcome for comparison. -/
def executeViaHandle (resp : List (RType × Payload)) : Option ExecResult :=
  let p := sendRequest initConn none
  let msgs := resp.map (fun x => Msg.mk p.2 x.1 x.2)
  let st2 := dispatchLoop p.1 msgs
  (waitRepeat st2 p.2 (msgs.length + 1)).map remapTerminal

/-- The synchronous path for the same request: `execute` on the same
response stream. -/
def executeDirect (resp : List (RType × Payload)) : Option ExecResult :=
  execute (resp.map (fun x => Msg.mk 1 x.1 x.2))

/-- Modelled from the spec: the multi-waiter delivery state of one Handle
(spec sections 3 and 5): a mailbox of messages numbered by arrival order, the
set of threads currently blocked in `wait`, and the record of which thread
consumed which message. -/
structure HandleLTS where
  mbox : List (Nat × RType × Payload)
  nextSeq : Nat
  waiters : List Nat
  delivered : List (Nat × Nat)
deriving DecidableEq

/-- An event in the life of a shared Handle: a message arrives from the
Dispatch Loop, a thread enters `wait`, or a waiting thread is handed the
oldest queued message. -/
inductive HEvent
| arrive (t : RType) (b : Payload)
| join (tid : Nat)
| deliver (tid : Nat)
deriving DecidableEq

/-- Modelled from the spec: one step of the shared-Handle delivery machine.
`arrive` queues a message with a fresh sequence number; `join` registers a
waiting thread; `deliver tid` hands the oldest queued message to the waiting
thread `tid`, removing both the message from the mailbox and the thread from
the waiter set — first-available semantics, the winning thread is whichever
`deliver` the scheduler picks.  A `deliver` with no queued message or by a
non-waiting thread is not enabled. -/
def hstep (s : HandleLTS) : HEvent → Option HandleLTS
| HEvent.arrive t b =>
    some { s with mbox := s.mbox ++ [(s.nextSeq, t, b)], nextSeq := s.nextSeq + 1 }
| HEvent.join tid => some { s with waiters := tid :: s.waiters }
| HEvent.deliver tid =>
    match s.mbox with
    | [] => none
    | m :: rest =>
        if tid ∈ s.waiters then
          some { s with mbox := rest, waiters := s.waiters.erase tid,
                        delivered := (tid, m.1) :: s.delivered }
        else none

/-- Run a sequence of Handle events from a state; `none` if an event was not
enabled. -/
def hrun : HandleLTS → List HEvent → Option HandleLTS
| s, [] => some s
| s, e :: es =>
    match hstep s e with
    | some s2 => hrun s2 es
    | none => none

/-- A Handle with no messages, no waiters, nothing delivered. -/
def hinit : HandleLTS :=
  { mbox := [], nextSeq := 0, waiters := [], delivered := [] }

/-- The sequence numbers a Handle state knows about: delivered ones followed
by queued ones. -/
def hseqs (s : HandleLTS) : List Nat :=
  s.delivered.map Prod.snd ++ s.mbox.map Prod.fst

/-- Invariant of the shared-Handle delivery machine: every message sequence
number appears at most once across the delivered record and the mailbox, and
all of them are below the arrival counter. -/
def hinv (s : HandleLTS) : Prop :=
  (hseqs s).Nodup ∧ ∀ q ∈ hseqs s, q < s.nextSeq

/-- Modelled from the spec: `arti_rpc_status_to_str` (header lines 592-597)
— a total map from status codes to a human-readable description, with a
fixed fallback for unrecognized codes. -/
def arti_rpc_status_to_str (status : Nat) : String :=
  match status with
  | 0 => "Operation was successful"
  | 1 => "Invalid input"
  | 2 => "Not supported"
  | 3 => "An IO error occurred while connecting to Arti"
  | 4 => "Authentication rejected"
  | 5 => "Peer violated the RPC protocol"
  | 6 => "Peer has shut down"
  | 7 => "Internal error; possible bug in this library"
  | 8 => "Request has failed"
  | 9 => "Request was cancelled"
  | 10 => "An IO error occurred while trying to negotiate a data stream"
  | _ => "(unrecognized error code)"

/-- The Error Object (spec section 3): status code, optional OS error code,
human-readable message, optional raw JSON error response from the peer. -/
structure ArtiRpcError where
  status : Nat
  osErrorCode : Int
  message : String
  response : Option Payload
deriving DecidableEq

/-- Modelled from the spec: `arti_rpc_err_status` (header lines 599-604);
the C NULL argument is modelled as `none`, and the header documents that a
NULL `err` yields `ARTI_RPC_STATUS_INVALID_INPUT`. -/
def arti_rpc_err_status : Option ArtiRpcError → Nat
| none => ARTI_RPC_STATUS_INVALID_INPUT
| some e => e.status

/-- Modelled from the spec: `arti_rpc_err_os_error_code` (header lines
606-616); returns 0 when `err` is NULL. -/
def arti_rpc_err_os_error_code : Option ArtiRpcError → Int
| none => 0
| some e => e.osErrorCode

/-- Modelled from the spec: `arti_rpc_err_message` (header lines 618-630);
returns NULL (here `none`) when `err` is NULL. -/
def arti_rpc_err_message : Option ArtiRpcError → Option String
| none => none
| some e => some e.message

/-- Modelled from the spec: `arti_rpc_err_clone` (header lines 648-658);
returns a copy of the error, or NULL when the input is NULL. -/
def arti_rpc_err_clone : Option ArtiRpcError → Option ArtiRpcError
| none => none
| some e => some e

/-! Helper lemmas about the table operations. -/

theorem lookup_setEntry_self (t : List (RequestId × Entry)) (r : RequestId) (e : Entry) :
    (setEntry t r e).lookup r = some e := by
  induction t with
  | nil => simp [setEntry, List.lookup]
  | cons p rest ih =>
      obtain ⟨k, v⟩ := p
      by_cases h : k = r
      · subst h
        simp [setEntry, List.lookup]
      · simp [setEntry, h, List.lookup, beq_false_of_ne (Ne.symm h), ih]

theorem lookup_setEntry_ne (t : List (RequestId × Entry)) (r r2 : RequestId) (e : Entry)
    (h : r2 ≠ r) : (setEntry t r e).lookup r2 = t.lookup r2 := by
  induction t with
  | nil => simp [setEntry, List.lookup, beq_false_of_ne h]
  | cons p rest ih =>
      obtain ⟨k, v⟩ := p
      by_cases hk : k = r
      · subst hk
        simp [setEntry, List.lookup, beq_false_of_ne h]
      · simp [setEntry, hk, List.lookup, ih]

theorem lookup_eq_none_of_not_mem (t : List (RequestId × Entry)) (r : RequestId)
    (h : r ∉ tableKeys t) : t.lookup r = none := by
  induction t with
  | nil => simp [List.lookup]
  | cons p rest ih =>
      obtain ⟨k, v⟩ := p
      simp [tableKeys] at h
      simp [List.lookup, beq_false_of_ne h.1, ih (by simp [tableKeys, h.2])]

theorem lookup_removeEntry_self (t : List (RequestId × Entry)) (r : RequestId)
    (h : (tableKeys t).Nodup) : (removeEntry t r).lookup r = none := by
  induction t with
  | nil => simp [removeEntry, List.lookup]
  | cons p rest ih =>
      obtain ⟨k, v⟩ := p
      simp [tableKeys, List.nodup_cons] at h
      by_cases hk : k = r
      · subst hk
        simpa [removeEntry] using
          lookup_eq_none_of_not_mem rest k (by simpa [tableKeys] using h.1)
      · simp [removeEntry, hk, List.lookup, beq_false_of_ne (Ne.symm hk),
              ih (by simpa [tableKeys] using h.2)]

theorem le_foldr_max (l : List Nat) (x : Nat) (h : x ∈ l) : x ≤ l.foldr max 0 := by
  induction l with
  | nil => cases h
  | cons a l ih =>
      rcases List.mem_cons.mp h with h1 | h2
      · subst h1
        exact Nat.le_max_left _ _
      · exact (ih h2).trans (Nat.le_max_right _ _)

theorem freshId_not_mem (keys : List RequestId) : freshId keys ∉ keys := by
  intro h
  have := le_foldr_max keys _ h
  simp only [freshId] at this
  omega

theorem tableKeys_setEntry_of_not_mem (t : List (RequestId × Entry)) (r : RequestId)
    (e : Entry) (h : r ∉ tableKeys t) :
    tableKeys (setEntry t r e) = tableKeys t ++ [r] := by
  induction t with
  | nil => rfl
  | cons p rest ih =>
      obtain ⟨k, v⟩ := p
      have hk : ¬ k = r := by
        intro he
        subst he
        exact h (List.mem_cons_self _ _)
      have hr : r ∉ tableKeys rest := by
        intro he
        exact h (List.mem_cons_of_mem _ he)
      have ih2 := ih hr
      simp only [tableKeys, List.map_cons] at ih2 ⊢
      simp [setEntry, hk, ih2]

theorem dispatchLoop_done (st : ConnState) (h : st.loopDone = true) :
    ∀ msgs, dispatchLoop st msgs = st := by
  intro msgs
  cases msgs with
  | nil => rfl
  | cons m rest => simp [dispatchLoop, h]

/-! The claims. -/

/-- C1: an inbound message whose RequestId has no entry in the
Pending-Request Table (unknown, or already terminally closed) makes the
Dispatch Loop mark the Connection failed with a peer protocol violation,
deliver nothing to any Handle (the table is untouched), and terminate: it
processes no further messages. -/
theorem dispatch_unknown_id_poisons (st : ConnState) (m : Msg)
    (h : st.table.lookup m.rid = none) :
    (dispatchMsg st m).2 = DispatchAction.violation ∧
    (dispatchMsg st m).1.poisoned = true ∧
    (dispatchMsg st m).1.loopDone = true ∧
    (dispatchMsg st m).1.table = st.table ∧
    ∀ rest, dispatchLoop (dispatchMsg st m).1 rest = (dispatchMsg st m).1 := by
  have hd : dispatchMsg st m
      = ({ st with poisoned := true, loopDone := true }, DispatchAction.violation) := by
    simp [dispatchMsg, h]
  rw [hd]
  refine ⟨rfl, rfl, rfl, rfl, ?_⟩
  intro rest
  exact dispatchLoop_done _ rfl rest

/-- C1 witness: a Result for the unknown RequestId 7 arriving on a fresh
connection poisons it and stops the loop. -/
theorem dispatch_unknown_id_poisons_witness :
    (dispatchMsg initConn (Msg.mk 7 RType.result "p")).2 = DispatchAction.violation ∧
    (dispatchMsg initConn (Msg.mk 7 RType.result "p")).1.poisoned = true ∧
    dispatchLoop (dispatchMsg initConn (Msg.mk 7 RType.result "p")).1
        [Msg.mk 8 RType.update "p"]
      = (dispatchMsg initConn (Msg.mk 7 RType.result "p")).1 := by
  have h := dispatch_unknown_id_poisons initConn (Msg.mk 7 RType.result "p") rfl
  exact ⟨h.1, h.2.1, h.2.2.2.2 [Msg.mk 8 RType.update "p"]⟩

/-- C5: a request submitted without an explicit id is assigned an id with no
entry in the Pending-Request Table at assignment time (distinct from every
pending id); the entry is inserted, and the table's ids stay unique. -/
theorem generated_id_table_unique (st : ConnState)
    (h : (tableKeys st.table).Nodup) :
    st.table.lookup (sendRequest st none).2 = none ∧
    isPending (sendRequest st none).1 (sendRequest st none).2 = true ∧
    (tableKeys (sendRequest st none).1.table).Nodup := by
  have hfresh : freshId (tableKeys st.table) ∉ tableKeys st.table :=
    freshId_not_mem _
  have h2 : (sendRequest st none).2 = freshId (tableKeys st.table) := rfl
  have h1 : (sendRequest st none).1.table
      = setEntry st.table (freshId (tableKeys st.table)) (Entry.active []) := rfl
  refine ⟨?_, ?_, ?_⟩
  · rw [h2]
    exact lookup_eq_none_of_not_mem _ _ hfresh
  · rw [isPending, h1, h2, lookup_setEntry_self]
  · rw [h1, tableKeys_setEntry_of_not_mem _ _ _ hfresh]
    simp [List.nodup_append, h, hfresh]

/-- C5 witness: on a table already holding ids 1 and 2 the generated id is 3,
absent from the table, pending afterwards, with ids still unique. -/
theorem generated_id_table_unique_witness :
    (ConnState.mk [(1, Entry.active []), (2, Entry.ceded)] false false).table.lookup
        (sendRequest (ConnState.mk [(1, Entry.active []), (2, Entry.ceded)] false false) none).2
      = none ∧
    isPending
        (sendRequest (ConnState.mk [(1, Entry.active []), (2, Entry.ceded)] false false) none).1
        (sendRequest (ConnState.mk [(1, Entry.active []), (2, Entry.ceded)] false false) none).2
      = true ∧
    (tableKeys
        (sendRequest (ConnState.mk [(1, Entry.active []), (2, Entry.ceded)] false false) none).1.table).Nodup :=
  generated_id_table_unique
    (ConnState.mk [(1, Entry.active []), (2, Entry.ceded)] false false) (by decide)

/-- C7: on a Handle whose next queued message is terminal, `wait` consumes it
successfully, and a further `wait` on the same Handle returns the
"no longer active" error `ARTI_RPC_STATUS_REQUEST_CANCELLED` — it neither
blocks nor returns another message. -/
theorem wait_after_terminal_no_longer_active (st : ConnState) (r : RequestId)
    (t : Msg) (rest : List Msg)
    (hp : st.poisoned = false)
    (hnd : (tableKeys st.table).Nodup)
    (hl : st.table.lookup r = some (Entry.active (t :: rest)))
    (ht : t.rtype.isTerminal = true) :
    (wait st r).2 = WaitResult.msg ARTI_RPC_STATUS_SUCCESS t.rtype.code t.body ∧
    (wait (wait st r).1 r).2 = WaitResult.err ARTI_RPC_STATUS_REQUEST_CANCELLED := by
  have h1 : wait st r
      = ({ st with table := removeEntry st.table r },
         WaitResult.msg ARTI_RPC_STATUS_SUCCESS t.rtype.code t.body) := by
    simp [wait, hp, hl, ht]
  rw [h1]
  refine ⟨rfl, ?_⟩
  simp [wait, hp, lookup_removeEntry_self st.table r hnd]

/-- C7 witness: consuming the terminal Result on request 4, then waiting
again, yields the cancelled-status error. -/
theorem wait_after_terminal_no_longer_active_witness :
    (wait (ConnState.mk [(4, Entry.active [Msg.mk 4 RType.result "p"])] false false) 4).2
      = WaitResult.msg ARTI_RPC_STATUS_SUCCESS (RType.result).code "p" ∧
    (wait (wait (ConnState.mk [(4, Entry.active [Msg.mk 4 RType.result "p"])] false false) 4).1 4).2
      = WaitResult.err ARTI_RPC_STATUS_REQUEST_CANCELLED :=
  wait_after_terminal_no_longer_active
    (ConnState.mk [(4, Entry.active [Msg.mk 4 RType.result "p"])] false false)
    4 (Msg.mk 4 RType.result "p") [] rfl (by decide) rfl rfl

/-- C8: releasing a Handle before its terminal message removes the request's
delivery entry from the Pending-Request Table (it is no longer pending; a
consumed-marker remains for correlation), and a message for that RequestId
arriving afterwards is silently dropped by the Dispatch Loop: no delivery,
no poisoning, and the loop goes on processing the rest of the stream. -/
theorem handle_free_then_message_dropped (st : ConnState) (r : RequestId)
    (mbox : List Msg) (m : Msg)
    (hl : st.table.lookup r = some (Entry.active mbox))
    (hm : m.rid = r) :
    isPending (handleFree st r) r = false ∧
    dispatchMsg (handleFree st r) m = (handleFree st r, DispatchAction.dropped) ∧
    (handleFree st r).poisoned = st.poisoned ∧
    (handleFree st r).loopDone = st.loopDone ∧
    ∀ rest, dispatchLoop (handleFree st r) (m :: rest)
      = dispatchLoop (handleFree st r) rest := by
  have h1 : handleFree st r = { st with table := setEntry st.table r Entry.ceded } := by
    simp [handleFree, hl]
  have h2 : (handleFree st r).table.lookup r = some Entry.ceded := by
    rw [h1]
    exact lookup_setEntry_self _ _ _
  have h3 : dispatchMsg (handleFree st r) m = (handleFree st r, DispatchAction.dropped) := by
    simp [dispatchMsg, hm, h2]
  refine ⟨?_, h3, ?_, ?_, ?_⟩
  · simp [isPending, h2]
  · rw [h1]
  · rw [h1]
  · intro rest
    by_cases hdone : (handleFree st r).loopDone = true
    · rw [dispatchLoop_done _ hdone, dispatchLoop_done _ hdone]
    · cases rest with
      | nil => simp [dispatchLoop, hdone, h3]
      | cons m2 rest2 => simp [dispatchLoop, hdone, h3]

/-- C8 witness: freeing the Handle for request 4 while request 9 stays
pending, then receiving an update for 4, drops it and leaves the loop
running. -/
theorem handle_free_then_message_dropped_witness :
    isPending
        (handleFree (ConnState.mk [(4, Entry.active []), (9, Entry.active [])] false false) 4) 4
      = false ∧
    dispatchMsg
        (handleFree (ConnState.mk [(4, Entry.active []), (9, Entry.active [])] false false) 4)
        (Msg.mk 4 RType.update "p")
      = (handleFree (ConnState.mk [(4, Entry.active []), (9, Entry.active [])] false false) 4,
         DispatchAction.dropped) ∧
    (handleFree (ConnState.mk [(4, Entry.active []), (9, Entry.active [])] false false) 4).poisoned
      = false := by
  have h := handle_free_then_message_dropped
    (ConnState.mk [(4, Entry.active []), (9, Entry.active [])] false false)
    4 [] (Msg.mk 4 RType.update "p") rfl rfl
  exact ⟨h.1, h.2.1, h.2.2.1⟩

/-- C4: Scenario C — a terminal Result for request `r` is consumed, then the
peer sends another message for `r`: the Dispatch Loop flags a protocol
violation, the Connection is poisoned, and the next `wait` on every Handle of
this Connection (any RequestId) returns the peer-protocol-violation error
rather than a message. -/
theorem message_after_terminal_poisons_connection (st : ConnState)
    (r : RequestId) (t m : Msg) (rest : List Msg)
    (hp : st.poisoned = false)
    (hnd : (tableKeys st.table).Nodup)
    (hl : st.table.lookup r = some (Entry.active (t :: rest)))
    (ht : t.rtype.isTerminal = true)
    (hm : m.rid = r) :
    (dispatchMsg (wait st r).1 m).2 = DispatchAction.violation ∧
    (dispatchMsg (wait st r).1 m).1.poisoned = true ∧
    ∀ r3, (wait (dispatchMsg (wait st r).1 m).1 r3).2
      = WaitResult.err ARTI_RPC_STATUS_PEER_PROTOCOL_VIOLATION := by
  have h1 : (wait st r).1 = { st with table := removeEntry st.table r } := by
    simp [wait, hp, hl, ht]
  have h2 : (wait st r).1.table.lookup m.rid = none := by
    rw [h1, hm]
    exact lookup_removeEntry_self _ _ hnd
  have h3 : dispatchMsg (wait st r).1 m
      = ({ (wait st r).1 with poisoned := true, loopDone := true },
         DispatchAction.violation) := by
    simp [dispatchMsg, h2]
  rw [h3]
  refine ⟨rfl, rfl, ?_⟩
  intro r3
  simp [wait]

/-- C4 witness: request 7's terminal Result is consumed; a further update for
7 poisons the Connection and the next `wait` on in-flight request 3 fails
with the protocol-violation status. -/
theorem message_after_terminal_poisons_connection_witness :
    (dispatchMsg
        (wait (ConnState.mk
          [(7, Entry.active [Msg.mk 7 RType.result "ok"]), (3, Entry.active [])]
          false false) 7).1
        (Msg.mk 7 RType.update "late")).2 = DispatchAction.violation ∧
    (dispatchMsg
        (wait (ConnState.mk
          [(7, Entry.active [Msg.mk 7 RType.result "ok"]), (3, Entry.active [])]
          false false) 7).1
        (Msg.mk 7 RType.update "late")).1.poisoned = true ∧
    (wait (dispatchMsg
        (wait (ConnState.mk
          [(7, Entry.active [Msg.mk 7 RType.result "ok"]), (3, Entry.active [])]
          false false) 7).1
        (Msg.mk 7 RType.update "late")).1 3).2
      = WaitResult.err ARTI_RPC_STATUS_PEER_PROTOCOL_VIOLATION := by
  have h := message_after_terminal_poisons_connection
    (ConnState.mk
      [(7, Entry.active [Msg.mk 7 RType.result "ok"]), (3, Entry.active [])]
      false false)
    7 (Msg.mk 7 RType.result "ok") (Msg.mk 7 RType.update "late") []
    rfl (by decide) rfl rfl rfl
  exact ⟨h.1, h.2.1, h.2.2 3⟩

theorem waitUntilTerminal_skips_updates (us msgs : List Msg)
    (hu : ∀ x ∈ us, x.rtype = RType.update) :
    waitUntilTerminal (us ++ msgs) = waitUntilTerminal msgs := by
  induction us with
  | nil => rfl
  | cons u us2 ih =>
      have hu1 : u.rtype = RType.update := hu u (List.mem_cons_self _ _)
      simp [waitUntilTerminal, hu1, RType.isTerminal,
            ih (fun x hx => hu x (List.mem_cons_of_mem _ hx))]

/-- C2: when the peer's terminal envelope for a request is an Error, `wait`
on its Handle succeeds — status `ARTI_RPC_STATUS_SUCCESS`, response type
`ARTI_RPC_RESPONSE_TYPE_ERROR`, and the error payload — while the
synchronous `execute` of the same request (updates, then that terminal
Error) returns a `ARTI_RPC_STATUS_REQUEST_FAILED` error instead of a
successful response. -/
theorem error_envelope_wait_success_execute_failed (st : ConnState)
    (r : RequestId) (m : Msg) (rest us : List Msg)
    (hp : st.poisoned = false)
    (hl : st.table.lookup r = some (Entry.active (m :: rest)))
    (hm : m.rtype = RType.error)
    (hu : ∀ x ∈ us, x.rtype = RType.update) :
    (wait st r).2
      = WaitResult.msg ARTI_RPC_STATUS_SUCCESS ARTI_RPC_RESPONSE_TYPE_ERROR m.body ∧
    execute (us ++ m :: rest)
      = some (ExecResult.err ARTI_RPC_STATUS_REQUEST_FAILED (some m.body)) := by
  constructor
  · simp [wait, hp, hl, hm, RType.isTerminal, RType.code]
  · rw [execute, waitUntilTerminal_skips_updates us _ hu]
    simp [waitUntilTerminal, hm, RType.isTerminal]

/-- C2 witness: an update then a terminal Error on request 2 — `wait`
delivers the Error envelope successfully, `execute` reports RequestFailed
with the same payload. -/
theorem error_envelope_wait_success_execute_failed_witness :
    (wait (ConnState.mk [(2, Entry.active [Msg.mk 2 RType.error "oops"])] false false) 2).2
      = WaitResult.msg ARTI_RPC_STATUS_SUCCESS ARTI_RPC_RESPONSE_TYPE_ERROR "oops" ∧
    execute ([Msg.mk 2 RType.update "u1"] ++ Msg.mk 2 RType.error "oops" :: [])
      = some (ExecResult.err ARTI_RPC_STATUS_REQUEST_FAILED (some "oops")) :=
  error_envelope_wait_success_execute_failed
    (ConnState.mk [(2, Entry.active [Msg.mk 2 RType.error "oops"])] false false)
    2 (Msg.mk 2 RType.error "oops") [] [Msg.mk 2 RType.update "u1"]
    rfl rfl rfl (by decide)

/-- C9: `arti_rpc_status_to_str` is total: every status value, including
values outside the defined taxonomy, is mapped to a non-empty (non-NULL)
descriptive string. -/
theorem status_to_str_total_nonempty :
    ∀ status : Nat, arti_rpc_status_to_str status ≠ "" := by
  intro status
  rcases Nat.lt_or_ge status 11 with h | h
  · interval_cases status <;> decide
  · obtain ⟨n, rfl⟩ := Nat.exists_eq_add_of_le' h
    show "(unrecognized error code)" ≠ ""
    decide

theorem code_ne_update_of_terminal (t : RType) (h : t.isTerminal = true) :
    t.code ≠ ARTI_RPC_RESPONSE_TYPE_UPDATE := by
  cases t with
  | update => exact Bool.noConfusion h
  | result => decide
  | error => decide

theorem dispatchLoop_singleton_active (r : RequestId) :
    ∀ (msgs mbox : List Msg), (∀ x ∈ msgs, x.rid = r) →
    dispatchLoop (ConnState.mk [(r, Entry.active mbox)] false false) msgs
      = ConnState.mk [(r, Entry.active (mbox ++ msgs))] false false := by
  intro msgs
  induction msgs with
  | nil =>
      intro mbox _
      simp [dispatchLoop]
  | cons m ms ih =>
      intro mbox hr
      have hm : m.rid = r := hr m (List.mem_cons_self _ _)
      have hstep : dispatchMsg (ConnState.mk [(r, Entry.active mbox)] false false) m
          = (ConnState.mk [(r, Entry.active (mbox ++ [m]))] false false,
             DispatchAction.delivered) := by
        simp [dispatchMsg, hm, List.lookup, setEntry]
      have ih2 := ih (mbox ++ [m]) (fun x hx => hr x (List.mem_cons_of_mem _ hx))
      simp [dispatchLoop, hstep, ih2]

theorem waitRepeat_updates_then_terminal (r : RequestId) :
    ∀ (us : List Msg) (t : Msg) (fuel : Nat), us.length < fuel →
    (∀ x ∈ us, x.rtype = RType.update) → t.rtype.isTerminal = true →
    waitRepeat (ConnState.mk [(r, Entry.active (us ++ [t]))] false false) r fuel
      = some (ARTI_RPC_STATUS_SUCCESS, t.rtype.code, t.body) := by
  intro us
  induction us with
  | nil =>
      intro t fuel hfuel hu ht
      cases fuel with
      | zero => omega
      | succ f =>
          simp [waitRepeat, wait, List.lookup, ht, code_ne_update_of_terminal t.rtype ht]
  | cons u us2 ih =>
      intro t fuel hfuel hu ht
      cases fuel with
      | zero => omega
      | succ f =>
          have hu1 : u.rtype = RType.update := hu u (List.mem_cons_self _ _)
          have ih2 := ih t f (by simpa using Nat.lt_of_succ_lt_succ hfuel)
            (fun x hx => hu x (List.mem_cons_of_mem _ hx)) ht
          simp [waitRepeat, wait, List.lookup, hu1, RType.isTerminal, RType.code,
                setEntry, List.cons_append, ih2]

/-- C3: for a request whose response sequence is zero or more Updates
followed by exactly one terminal Result or Error, the synchronous `execute`
and the asynchronous `execute_with_handle` + repeated `wait` until a
terminal message produce the same final outcome: the same payload on a
Result, the same RequestFailed-mapped error on a terminal Error. -/
theorem execute_equiv_handle_wait_loop (updates : List (RType × Payload))
    (t : RType × Payload)
    (hu : ∀ x ∈ updates, x.1 = RType.update)
    (ht : t.1.isTerminal = true) :
    executeViaHandle (updates ++ [t]) = executeDirect (updates ++ [t]) := by
  obtain ⟨t1, t2⟩ := t
  have hsend : sendRequest initConn none
      = (ConnState.mk [(1, Entry.active [])] false false, 1) := rfl
  have hmap : (updates ++ [(t1, t2)]).map (fun x => Msg.mk 1 x.1 x.2)
      = updates.map (fun x => Msg.mk 1 x.1 x.2) ++ [Msg.mk 1 t1 t2] := by
    simp
  have hrid : ∀ x ∈ updates.map (fun x => Msg.mk 1 x.1 x.2) ++ [Msg.mk 1 t1 t2],
      x.rid = 1 := by
    intro x hx
    rcases List.mem_append.mp hx with hx | hx
    · obtain ⟨a, _, rfl⟩ := List.mem_map.mp hx
      rfl
    · rcases List.mem_singleton.mp hx with rfl
      rfl
  have hupd : ∀ x ∈ updates.map (fun x => Msg.mk 1 x.1 x.2),
      x.rtype = RType.update := by
    intro x hx
    obtain ⟨a, ha, rfl⟩ := List.mem_map.mp hx
    exact hu a ha
  have hdisp := dispatchLoop_singleton_active 1
    (updates.map (fun x => Msg.mk 1 x.1 x.2) ++ [Msg.mk 1 t1 t2]) [] hrid
  have hlen : (updates.map (fun x => Msg.mk 1 x.1 x.2)).length
      < (updates.map (fun x => Msg.mk 1 x.1 x.2) ++ [Msg.mk 1 t1 t2]).length + 1 := by
    simp only [List.length_append, List.length_map, List.length_cons, List.length_nil]
    omega
  have hwr := waitRepeat_updates_then_terminal 1
    (updates.map (fun x => Msg.mk 1 x.1 x.2)) (Msg.mk 1 t1 t2)
    ((updates.map (fun x => Msg.mk 1 x.1 x.2) ++ [Msg.mk 1 t1 t2]).length + 1)
    hlen hupd ht
  have hlhs : executeViaHandle (updates ++ [(t1, t2)])
      = some (remapTerminal (ARTI_RPC_STATUS_SUCCESS, RType.code t1, t2)) := by
    simp only [executeViaHandle, hsend, hmap]
    rw [hdisp]
    simp only [List.nil_append]
    rw [hwr]
    rfl
  have hterm : waitUntilTerminal
      (updates.map (fun x => Msg.mk 1 x.1 x.2) ++ [Msg.mk 1 t1 t2])
      = some (Msg.mk 1 t1 t2) := by
    rw [waitUntilTerminal_skips_updates _ _ hupd]
    simp [waitUntilTerminal, ht]
  have hrhs : executeDirect (updates ++ [(t1, t2)])
      = (if t1 = RType.result then some (ExecResult.ok t2)
         else some (ExecResult.err ARTI_RPC_STATUS_REQUEST_FAILED (some t2))) := by
    simp only [executeDirect, execute, hmap, hterm]
  rw [hlhs, hrhs]
  cases t1 with
  | update => exact Bool.noConfusion ht
  | result => rfl
  | error => rfl

/-- C3 witness: two updates then a terminal Result, and a terminal Error
with no updates — the handle path and the synchronous path agree. -/
theorem execute_equiv_handle_wait_loop_witness :
    executeViaHandle ([(RType.update, "u1"), (RType.update, "u2")] ++ [(RType.result, "fin")])
      = executeDirect ([(RType.update, "u1"), (RType.update, "u2")] ++ [(RType.result, "fin")]) ∧
    executeViaHandle ([] ++ [(RType.error, "bad")])
      = executeDirect ([] ++ [(RType.error, "bad")]) :=
  ⟨execute_equiv_handle_wait_loop [(RType.update, "u1"), (RType.update, "u2")]
      (RType.result, "fin") (by decide) rfl,
   execute_equiv_handle_wait_loop [] (RType.error, "bad") (by decide) rfl⟩

theorem hstep_preserves_hinv (s s2 : HandleLTS) (e : HEvent)
    (hi : hinv s) (h : hstep s e = some s2) : hinv s2 := by
  obtain ⟨hn, hb⟩ := hi
  cases e with
  | arrive t b =>
      simp only [hstep, Option.some.injEq] at h
      subst h
      have hx : s.nextSeq ∉ hseqs s := fun hmem => Nat.lt_irrefl _ (hb _ hmem)
      have hseq2 : hseqs { s with mbox := s.mbox ++ [(s.nextSeq, t, b)], nextSeq := s.nextSeq + 1 } = hseqs s ++ [s.nextSeq] := by
        simp [hseqs]
      constructor
      · rw [hseq2]
        simp [List.nodup_append, hn, hx]
      · intro q hq
        rw [hseq2] at hq
        rcases List.mem_append.mp hq with h1 | h1
        · exact Nat.lt_succ_of_lt (hb q h1)
        · rcases List.mem_singleton.mp h1 with rfl
          exact Nat.lt_succ_self _
  | join tid =>
      simp only [hstep, Option.some.injEq] at h
      subst h
      exact ⟨hn, hb⟩
  | deliver tid =>
      rcases hmb : s.mbox with _ | ⟨m, rest⟩
      · simp only [hstep, hmb] at h
        exact Option.noConfusion h
      · simp only [hstep, hmb] at h
        by_cases htid : tid ∈ s.waiters
        · rw [if_pos htid] at h
          injection h with h
          subst h
          have hold : hseqs s
              = s.delivered.map Prod.snd ++ (m.1 :: rest.map Prod.fst) := by
            simp [hseqs, hmb]
          have hnew : hseqs { s with mbox := rest, waiters := s.waiters.erase tid, delivered := (tid, m.1) :: s.delivered } = m.1 :: (s.delivered.map Prod.snd ++ rest.map Prod.fst) := by
            simp [hseqs]
          constructor
          · rw [hnew]
            have h2 := hn
            rw [hold] at h2
            exact List.nodup_middle.mp h2
          · intro q hq
            rw [hnew] at hq
            have hq2 : q ∈ hseqs s := by
              rw [hold]
              rcases List.mem_cons.mp hq with rfl | h2
              · exact List.mem_append.mpr (Or.inr (List.mem_cons_self _ _))
              · rcases List.mem_append.mp h2 with h3 | h3
                · exact List.mem_append.mpr (Or.inl h3)
                · exact List.mem_append.mpr (Or.inr (List.mem_cons_of_mem _ h3))
            exact hb q hq2
        · rw [if_neg htid] at h
          exact Option.noConfusion h

theorem hrun_preserves_hinv : ∀ (es : List HEvent) (s s2 : HandleLTS),
    hinv s → hrun s es = some s2 → hinv s2 := by
  intro es
  induction es with
  | nil =>
      intro s s2 hi h
      simp only [hrun, Option.some.injEq] at h
      subst h
      exact hi
  | cons e es2 ih =>
      intro s s2 hi h
      rcases he : hstep s e with _ | s3
      · simp only [hrun, he] at h
        exact Option.noConfusion h
      · simp only [hrun, he] at h
        exact ih s3 s2 (hstep_preserves_hinv s s3 e hi he) h

/-- C6: in every interleaving of message arrivals, threads entering `wait`,
and deliveries on one shared Handle, each inbound message is consumed by
exactly one `wait` call — the record of (thread, message) deliveries never
contains a message twice — and no message is lost while a waiter is active:
with a nonempty mailbox and a waiting thread, delivering the oldest message
to that thread is enabled, removing the message from the mailbox and the
thread from the waiter set (which waiting thread wins is whichever the
scheduler picks). -/
theorem concurrent_wait_exactly_once (es : List HEvent) (s : HandleLTS)
    (h : hrun hinit es = some s) :
    ((s.delivered.map Prod.snd).Nodup) ∧
    ∀ tid m rest, s.mbox = m :: rest → tid ∈ s.waiters →
      hstep s (HEvent.deliver tid)
        = some { s with mbox := rest, waiters := s.waiters.erase tid, delivered := (tid, m.1) :: s.delivered } := by
  have hi0 : hinv hinit := by
    constructor
    · simp [hseqs, hinit]
    · intro q hq
      simp [hseqs, hinit] at hq
  have hi := hrun_preserves_hinv es hinit s hi0 h
  constructor
  · have h2 : (s.delivered.map Prod.snd ++ s.mbox.map Prod.fst).Nodup := hi.1
    exact List.Nodup.of_append_left h2
  · intro tid m rest hmb htid
    simp [hstep, hmb, htid]

/-- C6 witness: after one update arrives and thread 5 starts waiting, the
delivered record is duplicate-free and delivery of the queued message to
thread 5 is enabled with the expected effect. -/
theorem concurrent_wait_exactly_once_witness :
    (((HandleLTS.mk [(0, RType.update, "u")] 1 [5] []).delivered.map Prod.snd).Nodup) ∧
    hstep (HandleLTS.mk [(0, RType.update, "u")] 1 [5] []) (HEvent.deliver 5)
      = some (HandleLTS.mk [] 1 (List.erase [5] 5) [(5, 0)]) := by
  have h := concurrent_wait_exactly_once
    [HEvent.arrive RType.update "u", HEvent.join 5]
    (HandleLTS.mk [(0, RType.update, "u")] 1 [5] []) rfl
  exact ⟨h.1, h.2 5 (0, RType.update, "u") [] rfl (by decide)⟩

/-- C10: every error accessor is total on a NULL (here `none`) error and
returns the documented benign value: `arti_rpc_err_status` the InvalidInput
status, `arti_rpc_err_os_error_code` zero, `arti_rpc_err_message` NULL, and
`arti_rpc_err_clone` NULL. -/
theorem err_accessors_total_on_null :
    arti_rpc_err_status none = ARTI_RPC_STATUS_INVALID_INPUT ∧
    arti_rpc_err_os_error_code none = 0 ∧
    arti_rpc_err_message none = none ∧
    arti_rpc_err_clone none = none :=
  ⟨rfl, rfl, rfl, rfl⟩

end ArtiRpc
